import Mathlib

/-!
Verification development for the beelay CLI client (src/main.rs).
Strings are embedded as lists of characters; every function below is a
direct translation of the corresponding Rust function.  External effects
(the HTTP client, serde JSON parsing, environment lookup) are made
explicit: an HTTP response is a status plus a body-read result, JSON
parsing is a parameter, printing is modelled by returning the list of
printed lines.
-/

/-- Strings from the Rust program, embedded as lists of characters. -/
abbrev Str := List Char

/-- The struct `SwitchStateResponse` of main.rs. -/
structure SwitchStateResponse where
  state : Str
  transitioning : Str

/-- The struct `ErrorResponse` of main.rs. -/
structure ErrorResponse where
  error_message : Str

/-- The struct `SwitchesResponse` of main.rs. -/
structure SwitchesResponse where
  switches : List Str

/-- An HTTP status code as `reqwest` presents it: the numeric code plus
the canonical reason phrase used by its `Display` implementation. -/
structure StatusCode where
  code : Nat
  reason : Str

/-- `Display` of `http::StatusCode`: the decimal digits of the code, a
space, then the canonical reason phrase. -/
def statusDisplay (s : StatusCode) : Str :=
  Nat.toDigits 10 s.code ++ ' ' :: s.reason

/-- `StatusCode::is_success` of the `http` crate: 2xx statuses. -/
def statusIsSuccess (s : StatusCode) : Bool :=
  200 ≤ s.code && s.code < 300

/-- An HTTP response as the program consumes it: the status, and the
result of `resp.text()` (either the body text or the display of the
read error). -/
structure HttpResponse where
  status : StatusCode
  body : Except Str Str

/-- The literal `"http://"` tested and prepended by `fix_server_addr`. -/
def httpSchemeChars : Str := "http://".toList

/-- Rust `server_addr.ends_with('/')`: the last character is `'/'`. -/
def endsWithSlash (s : Str) : Bool :=
  s.getLast? == some '/'

/-- First step of `fix_server_addr` (main.rs lines 165-167): prepend
`"http://"` when the address does not start with it. -/
def addHttp (server_addr : Str) : Str :=
  if httpSchemeChars.isPrefixOf server_addr then server_addr
  else httpSchemeChars ++ server_addr

/-- Second step of `fix_server_addr` (main.rs lines 169-171): append
`'/'` when the address does not end with it. -/
def addSlash (server_addr : Str) : Str :=
  if endsWithSlash server_addr then server_addr
  else server_addr ++ ['/']

/-- `fix_server_addr` of main.rs: the two normalization steps in
sequence. -/
def fix_server_addr (server_addr : Str) : Str :=
  addSlash (addHttp server_addr)

/-- Rust substring containment `hay.contains(needle)`: some suffix of
the haystack starts with the needle. -/
def containsStr (needle : Str) : Str → Bool
  | [] => needle.isEmpty
  | c :: t => needle.isPrefixOf (c :: t) || containsStr needle t

/-- Rust `switch_name.replace(" ", "%20")` for the one-character
pattern `" "`: each space becomes `"%20"`, all other characters are
kept. -/
def replaceSpaces (s : Str) : Str :=
  s.flatMap (fun c => if c == ' ' then "%20".toList else [c])

/-- The switch-name encoding inside `to_switch_url` (main.rs lines
177-180): replace spaces only when the name contains a space. -/
def encodeSwitchName (switch_name : Str) : Str :=
  match containsStr " ".toList switch_name with
  | true => replaceSpaces switch_name
  | false => switch_name

/-- `to_switch_url` of main.rs. -/
def to_switch_url (server_addr switch_name : Str) : Str :=
  server_addr ++ "api/switch/".toList ++ encodeSwitchName switch_name

/-- `to_switches_url` of main.rs. -/
def to_switches_url (server_addr : Str) : Str :=
  server_addr ++ "api/switches/".toList

/-- The spec's description of the switch-name encoding, stated
unconditionally: every space character is replaced by `"%20"` and no
other character is changed.  Used to compare with the guarded
`encodeSwitchName` taken from the source. -/
def encodeSwitchNameSpec (switch_name : Str) : Str :=
  switch_name.flatMap (fun c => if c = ' ' then "%20".toList else [c])

/-- The server-address resolution in `main` (main.rs lines 81-90):
the `-s` or `--server` flag when given, else the `BEELAY_SERVER` environment
variable when readable, else the hardcoded default, then normalized by
`fix_server_addr`. -/
def resolve_server_addr (flag envVar : Option Str) : Str :=
  fix_server_addr
    (match flag with
     | some server => server
     | none =>
       match envVar with
       | some server => server
       | none => "http://localhost:9999".toList)

/-- HTTP methods used by the program. -/
inductive Method where
  | GET
  | POST
deriving DecidableEq

/-- The request a single operation issues: method, URL, query
parameters. -/
structure Request where
  method : Method
  url : Str
  query : List (Str × Str)
deriving DecidableEq

/-- The subcommand surface of main.rs: `get`, `set` (with its parsed
but unused `delay` option), `list`. -/
inductive SubCommands where
  | Get (switch_name : Str)
  | Set (switch_name : Str) (state : Str) (delay : Option Str)
  | List

/-- The request issued by `get_switch` (main.rs line 107). -/
def get_switch_request (server_addr switch_name : Str) : Request :=
  { method := .GET, url := to_switch_url server_addr switch_name, query := [] }

/-- The request issued by `set_switch` (main.rs lines 120-121): a POST
with the single query parameter `state`. -/
def set_switch_request (server_addr switch_name state : Str) : Request :=
  { method := .POST
    url := to_switch_url server_addr switch_name
    query := [("state".toList, state)] }

/-- The request issued by `list_switches` (main.rs line 145). -/
def list_switches_request (server_addr : Str) : Request :=
  { method := .GET, url := to_switches_url server_addr, query := [] }

/-- The dispatch in `main` (main.rs lines 93-97): which request each
subcommand issues.  `set_switch` receives only the name and the state;
the parsed `delay` option is dropped. -/
def mainRequest (server_addr : Str) : SubCommands → Request
  | .Get switch_name => get_switch_request server_addr switch_name
  | .Set switch_name state _delay => set_switch_request server_addr switch_name state
  | .List => list_switches_request server_addr

/-- `get_error_message` of main.rs, with the serde-JSON parse of
`ErrorResponse` as an explicit parameter (its error is surfaced via its
display string, as `?` plus `anyhow` do). -/
def get_error_message (parseError : Str → Except Str ErrorResponse)
    (resp_text : Str) : Except Str Str :=
  match parseError resp_text with
  | .ok error_resp => .ok error_resp.error_message
  | .error e => .error e

/-- `handle_bad_status_code` of main.rs. -/
def handle_bad_status_code (parseError : Str → Except Str ErrorResponse)
    (resp : HttpResponse) : Except Str Unit :=
  match resp.body with
  | .ok text =>
    match get_error_message parseError text with
    | .ok err_msg =>
      .error (statusDisplay resp.status ++ " response: ".toList ++ err_msg)
    | .error err =>
      .error ("Could not retrieve error message for ".toList ++
        statusDisplay resp.status ++ " response: ".toList ++ err)
  | .error _ => .error "Failed to get text body from response".toList

/-- A `Result<(), Error>` used where printed lines are the value: the
error passes through, success prints nothing. -/
def liftE (r : Except Str Unit) : Except Str (List Str) :=
  match r with
  | .ok _ => .ok []
  | .error e => .error e

/-- `print_switch_state_response` of main.rs: read the body, parse it
as `SwitchStateResponse`, return the two printed lines. -/
def print_switch_state_response
    (parseState : Str → Except Str SwitchStateResponse)
    (resp : HttpResponse) : Except Str (List Str) :=
  match resp.body with
  | .error e => .error e
  | .ok text =>
    match parseState text with
    | .error err => .error ("Failed to parse response: ".toList ++ err)
    | .ok r =>
      .ok ["state         : ".toList ++ r.state,
           "transitioning : ".toList ++ r.transitioning]

/-- The response handling of `get_switch` (main.rs lines 110-115). -/
def get_switch (parseState : Str → Except Str SwitchStateResponse)
    (parseError : Str → Except Str ErrorResponse)
    (resp : HttpResponse) : Except Str (List Str) :=
  if !(statusIsSuccess resp.status) then
    liftE (handle_bad_status_code parseError resp)
  else
    print_switch_state_response parseState resp

/-- The response handling of `set_switch` (main.rs lines 124-129),
identical to that of `get_switch`. -/
def set_switch (parseState : Str → Except Str SwitchStateResponse)
    (parseError : Str → Except Str ErrorResponse)
    (resp : HttpResponse) : Except Str (List Str) :=
  if !(statusIsSuccess resp.status) then
    liftE (handle_bad_status_code parseError resp)
  else
    print_switch_state_response parseState resp

/-- The response handling of `list_switches` (main.rs lines 148-161):
on success parse the body as `SwitchesResponse` and print the header
line followed by one four-space-indented line per switch. -/
def list_switches (parseSwitches : Str → Except Str SwitchesResponse)
    (parseError : Str → Except Str ErrorResponse)
    (resp : HttpResponse) : Except Str (List Str) :=
  if !(statusIsSuccess resp.status) then
    liftE (handle_bad_status_code parseError resp)
  else
    match resp.body with
    | .error e => .error e
    | .ok text =>
      match parseSwitches text with
      | .error err => .error ("Failed to parse response: ".toList ++ err)
      | .ok r =>
        .ok ("Switch list:".toList ::
          r.switches.map (fun switch => "    ".toList ++ switch))

/-! Helper lemmas about list containment and the normalization steps. -/

theorem isPrefixOf_nil_left (l : Str) : List.isPrefixOf [] l = true := by
  cases l <;> rfl

theorem isPrefixOf_cons₂ (c d : Char) (cs ds : Str) :
    (c :: cs).isPrefixOf (d :: ds) = ((c == d) && cs.isPrefixOf ds) := rfl

theorem isPrefixOf_append_self (p l : Str) : p.isPrefixOf (p ++ l) = true := by
  induction p with
  | nil => exact isPrefixOf_nil_left l
  | cons c cs ih =>
    rw [List.cons_append, isPrefixOf_cons₂, ih]
    simp only [beq_self_eq_true, Bool.and_true]

theorem isPrefixOf_extend (p l r : Str) (h : p.isPrefixOf l = true) :
    p.isPrefixOf (l ++ r) = true := by
  induction p generalizing l with
  | nil => exact isPrefixOf_nil_left (l ++ r)
  | cons c cs ih =>
    cases l with
    | nil => exact absurd h Bool.false_ne_true
    | cons d ds =>
      rw [isPrefixOf_cons₂, Bool.and_eq_true] at h
      rw [List.cons_append, isPrefixOf_cons₂, h.1, ih ds h.2]
      rfl

theorem containsStr_of_startsWith (n h : Str) (hp : n.isPrefixOf h = true) :
    containsStr n h = true := by
  cases h with
  | nil =>
    cases n with
    | nil => rfl
    | cons c cs => exact absurd hp Bool.false_ne_true
  | cons c t =>
    rw [containsStr, hp]
    rfl

theorem containsStr_cons (n : Str) (c : Char) (t : Str)
    (h : containsStr n t = true) : containsStr n (c :: t) = true := by
  rw [containsStr, h, Bool.or_true]

theorem containsStr_append_left (n l h : Str) (hc : containsStr n h = true) :
    containsStr n (l ++ h) = true := by
  induction l with
  | nil => simpa using hc
  | cons c cs ih => exact containsStr_cons n c (cs ++ h) ih

theorem containsStr_self (n r : Str) : containsStr n (n ++ r) = true :=
  containsStr_of_startsWith n (n ++ r) (isPrefixOf_append_self n r)

theorem containsStr_self_refl (n : Str) : containsStr n n = true := by
  have h := containsStr_self n []
  simpa using h

theorem containsStr_middle (n l r : Str) :
    containsStr n (l ++ (n ++ r)) = true :=
  containsStr_append_left n l (n ++ r) (containsStr_self n r)

theorem containsStr_tail (n l : Str) : containsStr n (l ++ n) = true :=
  containsStr_append_left n l n (containsStr_self_refl n)

theorem endsWithSlash_addSlash (s : Str) : endsWithSlash (addSlash s) = true := by
  unfold addSlash
  cases h : endsWithSlash s with
  | true => rw [if_pos rfl]; exact h
  | false =>
    rw [if_neg Bool.false_ne_true]
    rw [endsWithSlash, List.getLast?_concat]
    rfl

theorem startsHttp_addHttp (s : Str) :
    httpSchemeChars.isPrefixOf (addHttp s) = true := by
  unfold addHttp
  cases h : httpSchemeChars.isPrefixOf s with
  | true => rw [if_pos rfl]; exact h
  | false =>
    rw [if_neg Bool.false_ne_true]
    exact isPrefixOf_append_self httpSchemeChars s

theorem startsHttp_addSlash (s : Str) (h : httpSchemeChars.isPrefixOf s = true) :
    httpSchemeChars.isPrefixOf (addSlash s) = true := by
  unfold addSlash
  cases he : endsWithSlash s with
  | true => rw [if_pos rfl]; exact h
  | false =>
    rw [if_neg Bool.false_ne_true]
    exact isPrefixOf_extend httpSchemeChars s ['/'] h

theorem addHttp_of_startsHttp (s : Str) (h : httpSchemeChars.isPrefixOf s = true) :
    addHttp s = s := by
  unfold addHttp
  rw [h, if_pos rfl]

theorem addSlash_of_ends (s : Str) (h : endsWithSlash s = true) :
    addSlash s = s := by
  unfold addSlash
  rw [h, if_pos rfl]

theorem startsHttp_fix (a : Str) :
    httpSchemeChars.isPrefixOf (fix_server_addr a) = true :=
  startsHttp_addSlash (addHttp a) (startsHttp_addHttp a)

theorem endsWithSlash_fix (a : Str) : endsWithSlash (fix_server_addr a) = true :=
  endsWithSlash_addSlash (addHttp a)

theorem containsStr_single_any (c : Char) (s : Str) :
    containsStr [c] s = s.any (fun d => c == d) := by
  induction s with
  | nil => rfl
  | cons d t ih =>
    rw [containsStr, ih, List.any_cons, isPrefixOf_cons₂]
    rw [isPrefixOf_nil_left, Bool.and_true]

theorem replaceSpaces_cons (c : Char) (t : Str) :
    replaceSpaces (c :: t) =
      (if c == ' ' then "%20".toList else [c]) ++ replaceSpaces t := by
  unfold replaceSpaces
  rw [List.flatMap_cons]

theorem replaceSpaces_of_no_space (s : Str)
    (h : ∀ c ∈ s, (c == ' ') = false) : replaceSpaces s = s := by
  induction s with
  | nil => rfl
  | cons c t ih =>
    have hc : (c == ' ') = false := h c (List.mem_cons_self c t)
    have ht : replaceSpaces t = t := ih (fun d hd => h d (List.mem_cons_of_mem c hd))
    rw [replaceSpaces_cons, hc, if_neg Bool.false_ne_true, List.singleton_append, ht]

theorem encodeSwitchName_eq_replaceSpaces (n : Str) :
    encodeSwitchName n = replaceSpaces n := by
  unfold encodeSwitchName
  cases hc : containsStr " ".toList n with
  | true => rfl
  | false =>
    have hany : n.any (fun d => ' ' == d) = false := by
      rw [← containsStr_single_any ' ' n]
      exact hc
    have hall : ∀ c ∈ n, (c == ' ') = false := by
      intro c hcn
      cases hcs : (c == ' ') with
      | false => rfl
      | true =>
        have hceq : c = ' ' := beq_iff_eq.mp hcs
        have hnot := List.any_eq_false.mp hany c hcn
        rw [hceq] at hnot
        exact absurd (beq_self_eq_true ' ') hnot
    exact (replaceSpaces_of_no_space n hall).symm

theorem replaceSpaces_eq_spec (n : Str) :
    replaceSpaces n = encodeSwitchNameSpec n := by
  induction n with
  | nil => rfl
  | cons c t ih =>
    unfold encodeSwitchNameSpec
    rw [replaceSpaces_cons, List.flatMap_cons]
    have hif : (if c == ' ' then "%20".toList else [c]) =
        (if c = ' ' then "%20".toList else [c]) := by
      cases hcs : (c == ' ') with
      | true => rw [if_pos rfl, if_pos (beq_iff_eq.mp hcs)]
      | false =>
        rw [if_neg Bool.false_ne_true, if_neg]
        intro hceq
        rw [hceq, beq_self_eq_true] at hcs
        exact Bool.false_ne_true hcs.symm
    rw [hif]
    unfold encodeSwitchNameSpec at ih
    rw [ih]

/-- C2: for every resolved address and switch name, the switch URL built
for both get and set is the concatenation of the address, `"api/switch/"`
and the encoded switch name, where the encoding replaces every space
character by `"%20"` and keeps every other character unchanged. -/
theorem switch_url_encoding (server_addr switch_name state : Str) :
    (get_switch_request server_addr switch_name).url =
      server_addr ++ "api/switch/".toList ++
        switch_name.flatMap (fun c => if c = ' ' then "%20".toList else [c]) ∧
    (set_switch_request server_addr switch_name state).url =
      server_addr ++ "api/switch/".toList ++
        switch_name.flatMap (fun c => if c = ' ' then "%20".toList else [c]) := by
  have h : to_switch_url server_addr switch_name =
      server_addr ++ "api/switch/".toList ++ encodeSwitchNameSpec switch_name := by
    unfold to_switch_url
    rw [encodeSwitchName_eq_replaceSpaces, replaceSpaces_eq_spec]
  exact ⟨h, h⟩

/-- C3: normalization prepends `"http://"` exactly once when the scheme
marker is missing at the front and leaves the address alone otherwise;
it then appends exactly one `'/'` when the (possibly extended) address
does not already end with one; every normalized address starts with
`"http://"` and ends with `'/'`. -/
theorem fix_server_addr_normalizes (a : Str) :
    httpSchemeChars.isPrefixOf (fix_server_addr a) = true ∧
    endsWithSlash (fix_server_addr a) = true ∧
    (httpSchemeChars.isPrefixOf a = true →
      fix_server_addr a = if endsWithSlash a then a else a ++ ['/']) ∧
    (httpSchemeChars.isPrefixOf a = false →
      fix_server_addr a =
        if endsWithSlash (httpSchemeChars ++ a) then httpSchemeChars ++ a
        else (httpSchemeChars ++ a) ++ ['/']) := by
  refine ⟨startsHttp_fix a, endsWithSlash_fix a, ?_, ?_⟩
  · intro h
    unfold fix_server_addr
    rw [addHttp_of_startsHttp a h]
    rfl
  · intro h
    unfold fix_server_addr addHttp
    rw [h, if_neg Bool.false_ne_true]
    rfl

/-- Witness for C3 at two concrete addresses, one with the scheme marker
and one without it. -/
theorem fix_server_addr_normalizes_witness :
    (fix_server_addr "http://x".toList =
      if endsWithSlash "http://x".toList then "http://x".toList
      else "http://x".toList ++ ['/']) ∧
    (fix_server_addr "localhost".toList =
      if endsWithSlash (httpSchemeChars ++ "localhost".toList) then
        httpSchemeChars ++ "localhost".toList
      else (httpSchemeChars ++ "localhost".toList) ++ ['/']) :=
  ⟨(fix_server_addr_normalizes "http://x".toList).2.2.1 (by decide),
   (fix_server_addr_normalizes "localhost".toList).2.2.2 (by decide)⟩

/-- C4 counterexample: the address `"xhttp://"` contains `"http://"` as a
substring but not at the front, and normalization does prepend
`"http://"` to it, so the claim that any address containing `"http://"`
anywhere is left unprefixed is false. -/
theorem contains_http_still_prepends :
    containsStr httpSchemeChars "xhttp://".toList = true ∧
    fix_server_addr "xhttp://".toList = httpSchemeChars ++ "xhttp://".toList ∧
    fix_server_addr "xhttp://".toList ≠ "xhttp://".toList ∧
    fix_server_addr "xhttp://".toList ≠ "xhttp://".toList ++ ['/'] :=
  ⟨by decide, by decide, by decide, by decide⟩

/-- C4 amended: normalization refrains from prepending `"http://"` only
when the address starts with `"http://"`; in that case the address is
returned unchanged except for a possible trailing slash. -/
theorem no_prepend_when_starts_with_http (a : Str)
    (h : httpSchemeChars.isPrefixOf a = true) :
    fix_server_addr a = a ∨ fix_server_addr a = a ++ ['/'] := by
  unfold fix_server_addr
  rw [addHttp_of_startsHttp a h]
  unfold addSlash
  cases he : endsWithSlash a with
  | true =>
    left
    rw [if_pos rfl]
  | false =>
    right
    rw [if_neg Bool.false_ne_true]

/-- Witness for the amended C4 at a concrete address that starts with
the scheme marker. -/
theorem no_prepend_when_starts_with_http_witness :
    fix_server_addr "http://x".toList = "http://x".toList ∨
    fix_server_addr "http://x".toList = "http://x".toList ++ ['/'] :=
  no_prepend_when_starts_with_http "http://x".toList (by decide)

/-- C5: the request issued for the set subcommand is a POST to the
switch URL whose query is exactly the single parameter `state` carrying
the state string unchanged, and it is the same request for every value
of the parsed `delay` option. -/
theorem set_request_ignores_delay (server_addr switch_name state : Str)
    (d d' : Option Str) :
    mainRequest server_addr (.Set switch_name state d) =
      mainRequest server_addr (.Set switch_name state d') ∧
    (mainRequest server_addr (.Set switch_name state d)).method = Method.POST ∧
    (mainRequest server_addr (.Set switch_name state d)).url =
      to_switch_url server_addr switch_name ∧
    (mainRequest server_addr (.Set switch_name state d)).query =
      [("state".toList, state)] :=
  ⟨rfl, rfl, rfl, rfl⟩

/-- C6: the server address is the explicit flag when given, else the
environment variable when readable, else the hardcoded default, which
normalizes to `"http://localhost:9999/"`. -/
theorem server_addr_precedence :
    (∀ s envv, resolve_server_addr (some s) envv = fix_server_addr s) ∧
    (∀ e, resolve_server_addr none (some e) = fix_server_addr e) ∧
    resolve_server_addr none none = "http://localhost:9999/".toList :=
  ⟨fun _ _ => rfl, fun _ => rfl, by decide⟩

/-- C8: server-address normalization is idempotent. -/
theorem fix_server_addr_idempotent (a : Str) :
    fix_server_addr (fix_server_addr a) = fix_server_addr a := by
  have h1 := startsHttp_fix a
  have h2 := endsWithSlash_fix a
  show addSlash (addHttp (fix_server_addr a)) = fix_server_addr a
  rw [addHttp_of_startsHttp _ h1, addSlash_of_ends _ h2]

/-- C9 counterexample: with no flag and the environment variable set to
the empty string, the resolved address is `"http://"`, not the
`"http:///"` the claim states. -/
theorem empty_env_addr_counterexample :
    resolve_server_addr none (some []) = "http://".toList ∧
    resolve_server_addr none (some []) ≠ "http:///".toList :=
  ⟨by decide, by decide⟩

/-- C9 amended: when the flag is absent and the environment variable is
set to the empty string, the empty value is used rather than the
default, so the resolved address is `"http://"`; the hardcoded default
applies only when the variable is absent or unreadable. -/
theorem empty_env_addr_used :
    (∀ e, resolve_server_addr none (some e) = fix_server_addr e) ∧
    resolve_server_addr none (some []) = "http://".toList ∧
    resolve_server_addr none none =
      fix_server_addr "http://localhost:9999".toList :=
  ⟨fun _ => rfl, by decide, rfl⟩

/-- C7: a list invocation whose response is 2xx with a body parsing as a
Switches Response outputs the header line `"Switch list:"` followed by
one line per switch name, each indented by exactly four spaces, in the
order the server returned them; the output has one line more than there
are switches. -/
theorem list_switches_output
    (parseSwitches : Str → Except Str SwitchesResponse)
    (parseError : Str → Except Str ErrorResponse)
    (st : StatusCode) (text : Str) (r : SwitchesResponse)
    (hst : statusIsSuccess st = true)
    (hparse : parseSwitches text = Except.ok r) :
    list_switches parseSwitches parseError ⟨st, Except.ok text⟩ =
      Except.ok ("Switch list:".toList ::
        r.switches.map (fun switch => "    ".toList ++ switch)) ∧
    ("Switch list:".toList ::
        r.switches.map (fun switch => "    ".toList ++ switch)).length =
      r.switches.length + 1 := by
  constructor
  · unfold list_switches
    dsimp only
    rw [hst, Bool.not_true, if_neg Bool.false_ne_true, hparse]
  · simp

/-- Witness for C7 on the spec's example: three switches named a, b, c
returned by the parse, a 200 status, order preserved in the output. -/
theorem list_switches_output_witness :
    list_switches
        (fun _ => Except.ok (SwitchesResponse.mk ["a".toList, "b".toList, "c".toList]))
        (fun _ => Except.error []) ⟨⟨200, "OK".toList⟩, Except.ok "body".toList⟩ =
      Except.ok ("Switch list:".toList ::
        (["a".toList, "b".toList, "c".toList]).map (fun switch => "    ".toList ++ switch)) ∧
    ("Switch list:".toList ::
        (["a".toList, "b".toList, "c".toList]).map (fun switch => "    ".toList ++ switch)).length =
      (["a".toList, "b".toList, "c".toList] : List Str).length + 1 :=
  list_switches_output
    (fun _ => Except.ok (SwitchesResponse.mk ["a".toList, "b".toList, "c".toList]))
    (fun _ => Except.error []) ⟨200, "OK".toList⟩ "body".toList
    (SwitchesResponse.mk ["a".toList, "b".toList, "c".toList]) (by decide) rfl

/-- C1: every operation routes a non-2xx response through
`handle_bad_status_code`; there, a body that reads and parses as an
Error Response yields an error containing both the decimal status code
and the `error_message` field, a body that reads but does not parse
yields an error containing the status code and the parse-failure
detail, and an unreadable body yields the generic could-not-read-body
error. -/
theorem bad_status_error_content
    (parseError : Str → Except Str ErrorResponse)
    (st : StatusCode) (body : Except Str Str)
    (hst : statusIsSuccess st = false) :
    (∀ parseState, get_switch parseState parseError ⟨st, body⟩ =
        liftE (handle_bad_status_code parseError ⟨st, body⟩)) ∧
    (∀ parseState, set_switch parseState parseError ⟨st, body⟩ =
        liftE (handle_bad_status_code parseError ⟨st, body⟩)) ∧
    (∀ parseSwitches, list_switches parseSwitches parseError ⟨st, body⟩ =
        liftE (handle_bad_status_code parseError ⟨st, body⟩)) ∧
    (∀ text msg, body = Except.ok text →
      parseError text = Except.ok (ErrorResponse.mk msg) →
      ∃ e, handle_bad_status_code parseError ⟨st, body⟩ = Except.error e ∧
        containsStr (Nat.toDigits 10 st.code) e = true ∧
        containsStr msg e = true) ∧
    (∀ text perr, body = Except.ok text →
      parseError text = Except.error perr →
      ∃ e, handle_bad_status_code parseError ⟨st, body⟩ = Except.error e ∧
        containsStr (Nat.toDigits 10 st.code) e = true ∧
        containsStr perr e = true) ∧
    (∀ rerr, body = Except.error rerr →
      handle_bad_status_code parseError ⟨st, body⟩ =
        Except.error "Failed to get text body from response".toList) := by
  refine ⟨?_, ?_, ?_, ?_, ?_, ?_⟩
  · intro parseState
    unfold get_switch
    dsimp only
    rw [hst, Bool.not_false, if_pos rfl]
  · intro parseState
    unfold set_switch
    dsimp only
    rw [hst, Bool.not_false, if_pos rfl]
  · intro parseSwitches
    unfold list_switches
    dsimp only
    rw [hst, Bool.not_false, if_pos rfl]
  · intro text msg hb hp
    subst hb
    refine ⟨statusDisplay st ++ " response: ".toList ++ msg, ?_, ?_, ?_⟩
    · simp only [handle_bad_status_code, get_error_message, hp]
    · unfold statusDisplay
      rw [List.append_assoc, List.append_assoc]
      exact containsStr_self (Nat.toDigits 10 st.code) _
    · exact containsStr_tail msg (statusDisplay st ++ " response: ".toList)
  · intro text perr hb hp
    subst hb
    refine ⟨"Could not retrieve error message for ".toList ++ statusDisplay st ++
      " response: ".toList ++ perr, ?_, ?_, ?_⟩
    · simp only [handle_bad_status_code, get_error_message, hp]
    · unfold statusDisplay
      rw [List.append_assoc, List.append_assoc, List.append_assoc]
      exact containsStr_middle (Nat.toDigits 10 st.code) _ _
    · exact containsStr_tail perr _
  · intro rerr hb
    subst hb
    rfl

/-- Witness for C1 at concrete responses: a 404 whose body parses with
message not found, a 500 whose body fails to parse, and a 404 whose
body cannot be read. -/
theorem bad_status_error_content_witness :
    (∃ e, handle_bad_status_code
        (fun _ => Except.ok (ErrorResponse.mk "not found".toList))
        ⟨⟨404, "Not Found".toList⟩, Except.ok "ignored".toList⟩ = Except.error e ∧
        containsStr (Nat.toDigits 10 404) e = true ∧
        containsStr "not found".toList e = true) ∧
    (∃ e, handle_bad_status_code
        (fun _ => Except.error "expected value at line 1".toList)
        ⟨⟨500, "Internal Server Error".toList⟩, Except.ok "oops".toList⟩ = Except.error e ∧
        containsStr (Nat.toDigits 10 500) e = true ∧
        containsStr "expected value at line 1".toList e = true) ∧
    handle_bad_status_code (fun _ => Except.error [])
        ⟨⟨404, "Not Found".toList⟩, Except.error "read failed".toList⟩ =
      Except.error "Failed to get text body from response".toList :=
  ⟨(bad_status_error_content
      (fun _ => Except.ok (ErrorResponse.mk "not found".toList))
      ⟨404, "Not Found".toList⟩ (Except.ok "ignored".toList)
      (by decide)).2.2.2.1 "ignored".toList "not found".toList rfl rfl,
   (bad_status_error_content
      (fun _ => Except.error "expected value at line 1".toList)
      ⟨500, "Internal Server Error".toList⟩ (Except.ok "oops".toList)
      (by decide)).2.2.2.2.1 "oops".toList "expected value at line 1".toList rfl rfl,
   (bad_status_error_content (fun _ => Except.error [])
      ⟨404, "Not Found".toList⟩ (Except.error "read failed".toList)
      (by decide)).2.2.2.2.2 "read failed".toList rfl⟩

/-- C10: the guarded switch-name encoding taken from the source (replace
spaces only when the name contains one) equals the unconditional
replacement of every space by `"%20"`; the contains-space test never
changes the result. -/
theorem encode_guard_redundant (switch_name : Str) :
    encodeSwitchName switch_name = replaceSpaces switch_name ∧
    encodeSwitchName switch_name = encodeSwitchNameSpec switch_name := by
  refine ⟨encodeSwitchName_eq_replaceSpaces switch_name, ?_⟩
  rw [encodeSwitchName_eq_replaceSpaces, replaceSpaces_eq_spec]
